import Mathlib

/-!
Verification development for the cassava-leaf disease classification backend.

The embedding follows the Python sources:
* `backend/transforms.py` — the four frequency transforms (DCT, STFT-magnitude,
  wavelet approximation, learnable frequency filter);
* `backend/models.py` — `MidFusionNet`: eight branches over two shared backbone
  families, 1x1-conv fusion, batch norm, ReLU, global average pooling and a
  `Flatten/Dropout/Linear` classifier;
* `backend/utils.py` — `ModelPredictor`: weight loading (`load_model`) and the
  `predict` orchestration (transforms, forward pass, softmax, argmax);
* `backend/config.py` — `CLASS_NAMES`, `MODEL_CONFIG`.

Numpy arrays and torch tensors are modelled by `NDArr`: an explicit shape list
together with a total valuation of (integer list) indices by real numbers.
Floating point arithmetic is idealised over `ℝ`.  The pretrained torchvision
backbone stages (`mobilenet_v2.features`, `convnext_tiny.features`) are external
collaborators and enter the model as opaque function-valued weights; everything
written in this repository is translated directly.

External library facts used by the embedding:
* `cv2.dct` supports even-size arrays only and raises for odd sizes
  (OpenCV documentation for `dct`); it is therefore embedded as `Except`.
* `scipy.signal.stft` applied to a 2-D array returns a 3-D complex array
  (rows x onesided frequency bins x time segments).
* `cv2.resize` with the default bilinear interpolation samples the source with
  edge clamping; `pywt.dwt2` with the Haar wavelet averages 2x2 blocks with
  symmetric edge extension (scaled by 1/2 in the approximation subband).
-/

noncomputable section

/-- A numpy array / torch tensor: a shape together with a total valuation of
index lists.  Out-of-range indices are given arbitrary (formula-determined)
values; all theorems talk about in-range behaviour through the shape. -/
structure NDArr where
  shape : List ℕ
  val : List ℕ → ℝ

/-- A complex-valued array (for the STFT result `Zxx`). -/
structure NDArrC where
  shape : List ℕ
  val : List ℕ → ℂ

/-- `a.shape[i]`, with 0 for missing dimensions. -/
def NDArr.dim (a : NDArr) (i : ℕ) : ℕ := a.shape.getD i 0

/-- `cv2.cvtColor(img, cv2.COLOR_RGB2GRAY)` on an (h, w, 3) RGB array:
`Y = 0.299 R + 0.587 G + 0.114 B`. -/
def cvtGray (a : NDArr) : NDArr :=
  ⟨a.shape.take 2, fun idx =>
    0.299 * a.val (idx ++ [0]) + 0.587 * a.val (idx ++ [1]) + 0.114 * a.val (idx ++ [2])⟩

/-- Clamp an integer coordinate into the valid index range `[0, n-1]`. -/
def clampIdx (n : ℕ) (k : ℤ) : ℕ := (min (max k 0) ((n : ℤ) - 1)).toNat

/-- `cv2.resize(a, (W, H))` with the default `INTER_LINEAR` interpolation:
each destination pixel is the bilinear blend of the four edge-clamped source
pixels around the back-projected coordinate.  The result has shape `[H, W]`. -/
def resizeBL (a : NDArr) (W H : ℕ) : NDArr :=
  ⟨[H, W], fun idx =>
    let sh := a.dim 0
    let sw := a.dim 1
    let i := idx.getD 0 0
    let j := idx.getD 1 0
    let fy : ℝ := ((i : ℝ) + 1/2) * (sh : ℝ) / (H : ℝ) - 1/2
    let fx : ℝ := ((j : ℝ) + 1/2) * (sw : ℝ) / (W : ℝ) - 1/2
    let y0 : ℤ := ⌊fy⌋
    let x0 : ℤ := ⌊fx⌋
    let ty := fy - (y0 : ℝ)
    let tx := fx - (x0 : ℝ)
    let v : ℤ → ℤ → ℝ := fun r c => a.val [clampIdx sh r, clampIdx sw c]
    (1 - ty) * ((1 - tx) * v y0 x0 + tx * v y0 (x0 + 1)) +
      ty * ((1 - tx) * v (y0 + 1) x0 + tx * v (y0 + 1) (x0 + 1))⟩

/-- `np.stack([x, x, x], axis=-1)` on a 2-D array. -/
def stack3 (a : NDArr) : NDArr :=
  ⟨a.shape ++ [3], fun idx => a.val idx.dropLast⟩

/-- `np.repeat(m[..., np.newaxis], 3, axis=-1)` on a 2-D array: same contract
as `stack3` (three identical copies along a new trailing axis). -/
def repeat3 (a : NDArr) : NDArr :=
  ⟨a.shape ++ [3], fun idx => a.val idx.dropLast⟩

/-- `.transpose(2, 0, 1)` of an (H, W, C) array, giving (C, H, W). -/
def transpose201 (a : NDArr) : NDArr :=
  ⟨[a.dim 2, a.dim 0, a.dim 1], fun idx =>
    a.val [idx.getD 1 0, idx.getD 2 0, idx.getD 0 0]⟩

/-- `torch.tensor(., dtype=torch.float32)`: identity on our idealised arrays. -/
def toTensor (a : NDArr) : NDArr := a

/-- DCT-II normalisation coefficient used by `cv2.dct`. -/
def dctCoef (n k : ℕ) : ℝ :=
  if k = 0 then Real.sqrt (1 / (n : ℝ)) else Real.sqrt (2 / (n : ℝ))

/-- `cv2.dct` on a 2-D array: the orthonormal 2-D DCT-II, shape preserving. -/
def dct2 (a : NDArr) : NDArr :=
  ⟨a.shape, fun idx =>
    let h := a.dim 0
    let w := a.dim 1
    let u := idx.getD 0 0
    let v := idx.getD 1 0
    dctCoef h u * dctCoef w v *
      ∑ i ∈ Finset.range h, ∑ j ∈ Finset.range w,
        a.val [i, j] *
          Real.cos (Real.pi * (2 * (i : ℝ) + 1) * (u : ℝ) / (2 * (h : ℝ))) *
          Real.cos (Real.pi * (2 * (j : ℝ) + 1) * (v : ℝ) / (2 * (w : ℝ)))⟩

/-- The error `cv2.dct` raises on arrays with an odd number of rows or columns
(OpenCV supports even-size arrays only). -/
def dctEvenErr : String := "cv2.error: dct supports even-size arrays only"

/-- `DCTTransform.__call__` (transforms.py:10-18): grayscale, `cv2.dct`,
resize to 224x224, stack to three channels, transpose to channel-first.
`cv2.dct` raises on odd-size inputs, hence the `Except`. -/
def DCTTransform (img : NDArr) : Except String NDArr :=
  if (cvtGray img).dim 0 % 2 = 0 ∧ (cvtGray img).dim 1 % 2 = 0 then
    .ok (toTensor (transpose201 (stack3 (resizeBL (dct2 (cvtGray img)) 224 224))))
  else .error dctEvenErr

/-- `scipy.signal.stft` segment length: `nperseg=64`, reduced to the row length
when the rows are shorter (scipy adjusts `nperseg` with a warning). -/
def nperseg (w : ℕ) : ℕ := min 64 w

/-- scipy default overlap `noverlap = nperseg // 2`. -/
def noverl (w : ℕ) : ℕ := nperseg w / 2

/-- Segment-to-segment hop `nperseg - noverlap`. -/
def hopLen (w : ℕ) : ℕ := nperseg w - noverl w

/-- Number of onesided frequency bins `nperseg // 2 + 1`. -/
def nfreq (w : ℕ) : ℕ := nperseg w / 2 + 1

/-- Number of time segments produced by `scipy.signal.stft` with the default
zero boundary extension (by `nperseg // 2` on both ends) and zero padding to a
whole number of hops. -/
def nseg (w : ℕ) : ℕ :=
  (w + 2 * noverl w - nperseg w + (hopLen w - 1)) / hopLen w + 1

/-- The periodic Hann window scipy uses by default. -/
def hannWin (N t : ℕ) : ℝ := 1 / 2 - 1 / 2 * Real.cos (2 * Real.pi * (t : ℝ) / (N : ℝ))

/-- Sum of the analysis window (scipy scales `Zxx` by `1 / win.sum()`). -/
def winSum (w : ℕ) : ℝ := ∑ t ∈ Finset.range (nperseg w), hannWin (nperseg w) t

/-- Row `r` of the grayscale image, zero-extended outside `[0, w)` (the scipy
default `boundary='zeros'` / `padded=True` extension). -/
def extRow (g : NDArr) (r : ℕ) (k : ℤ) : ℝ :=
  if 0 ≤ k ∧ k < (g.dim 1 : ℤ) then g.val [r, k.toNat] else 0

/-- `scipy.signal.stft(img, nperseg=64)` on a 2-D array: a 3-D complex array of
shape rows x frequency bins x time segments; entry `(r, f, s)` is the windowed
DFT of segment `s` of row `r`. -/
def scipyStft (g : NDArr) : NDArrC :=
  let w := g.dim 1
  ⟨[g.dim 0, nfreq w, nseg w], fun idx =>
    let r := idx.getD 0 0
    let f := idx.getD 1 0
    let s := idx.getD 2 0
    (∑ t ∈ Finset.range (nperseg w),
        ((hannWin (nperseg w) t *
            extRow g r ((s * hopLen w + t : ℕ) - (noverl w : ℤ)) : ℝ) : ℂ) *
          Complex.exp (-(2 * Real.pi * (f : ℝ) * (t : ℝ) / (nperseg w : ℝ) : ℝ) * Complex.I)) /
      ((winSum w : ℝ) : ℂ)⟩

/-- `np.abs` on a complex array. -/
def npAbsC (z : NDArrC) : NDArr := ⟨z.shape, fun idx => Complex.abs (z.val idx)⟩

/-- `np.abs` on a real array. -/
def npAbs (a : NDArr) : NDArr := ⟨a.shape, fun idx => |a.val idx|⟩

/-- `magnitude[:, :, 0]`: keep only the first slice along the last axis. -/
def sliceLast0 (a : NDArr) : NDArr :=
  ⟨a.shape.take 2, fun idx => a.val (idx ++ [0])⟩

/-- The tail of `STFTTransform.__call__` after `magnitude = np.abs(Zxx)`
(transforms.py:31-42): the dimensionality guard, resize, replicate to three
channels, and transpose to channel-first. -/
def stftPost (mag : NDArr) : NDArr :=
  toTensor (transpose201 (repeat3 (resizeBL
    (if 2 < mag.shape.length then sliceLast0 mag else mag) 224 224)))

/-- `STFTTransform.__call__` (transforms.py:21-42). -/
def STFTTransform (img : NDArr) : NDArr :=
  stftPost (npAbsC (scipyStft (cvtGray img)))

/-- Symmetric edge extension index used by `pywt.dwt2` (only one step past the
edge is ever read by the Haar filter, where it mirrors the last sample). -/
def symIdx (n k : ℕ) : ℕ := min k (n - 1)

/-- The low-frequency approximation subband `LL` of `pywt.dwt2(g, 'haar')`:
each entry averages a 2x2 block (sum scaled by 1/2), with symmetric edge
extension for odd sizes; the subband has shape `[⌈h/2⌉, ⌈w/2⌉]`. -/
def dwt2LL (g : NDArr) : NDArr :=
  let h := g.dim 0
  let w := g.dim 1
  ⟨[(h + 1) / 2, (w + 1) / 2], fun idx =>
    let i := idx.getD 0 0
    let j := idx.getD 1 0
    (g.val [symIdx h (2 * i), symIdx w (2 * j)] +
        g.val [symIdx h (2 * i), symIdx w (2 * j + 1)] +
        g.val [symIdx h (2 * i + 1), symIdx w (2 * j)] +
        g.val [symIdx h (2 * i + 1), symIdx w (2 * j + 1)]) / 2⟩

/-- `WaveletTransform.__call__` (transforms.py:45-55): grayscale, Haar `dwt2`,
absolute value of the `LL` subband, resize, stack, transpose. -/
def WaveletTransform (img : NDArr) : NDArr :=
  toTensor (transpose201 (stack3 (resizeBL (npAbs (dwt2LL (cvtGray img))) 224 224)))

/-- `LearnableFrequencyTransform.forward` (transforms.py:63-74): grayscale,
resize to 224x224, elementwise product with the trainable `freq_filter`
parameter, stack to three channels, transpose.  The mask is the module's state,
created once at construction. -/
def LearnFreqTransform (freqFilter : ℕ → ℕ → ℝ) (img : NDArr) : NDArr :=
  let g := resizeBL (cvtGray img) 224 224
  let filtered : NDArr :=
    ⟨[224, 224], fun idx => g.val idx * freqFilter (idx.getD 0 0) (idx.getD 1 0)⟩
  toTensor (transpose201 (stack3 filtered))

/-! ### MidFusionNet (models.py) -/

/-- The learnable/persistent state of `MidFusionNet`.  The two backbone stage
pairs are the torchvision `mobilenet_v2.features[:7] / [7:14]` and
`convnext_tiny.features[:3] / [3:6]` truncations: external pretrained modules,
held as opaque feature-map functions.  Each family's blocks are created once in
`MidFusionNet.__init__` and shared by its four branches. -/
structure Weights where
  mnv2_block1 : NDArr → NDArr
  mnv2_block2 : NDArr → NDArr
  cnx_block1 : NDArr → NDArr
  cnx_block2 : NDArr → NDArr
  convW : ℕ → ℕ → ℝ
  convB : ℕ → ℝ
  bnGamma : ℕ → ℝ
  bnBeta : ℕ → ℝ
  bnMean : ℕ → ℝ
  bnVar : ℕ → ℝ
  linW : ℕ → ℕ → ℝ
  linB : ℕ → ℝ

/-- A persisted weight blob as produced by `torch.load`: its parameter
name-to-shape signature, plus the structured weights it decodes to when the
signature matches the freshly constructed graph. -/
structure StateDict where
  sig : List (String × List ℕ)
  decode : Weights

/-- `MidFusionNet` as a module: weights, the parameter signature of the
constructed graph, the dropout rate (fixed at construction from
`MODEL_CONFIG`), and the `nn.Module` train/eval flag. -/
structure MFN where
  w : Weights
  sig : List (String × List ℕ)
  dropoutP : ℝ
  training : Bool

/-- The eight keys of the `nn.ModuleDict` of branches. -/
inductive BranchKey
  | mnv2_dct | mnv2_stft | mnv2_wave | mnv2_learn
  | cnx_dct | cnx_stft | cnx_wave | cnx_learn
deriving DecidableEq

/-- `true` for the MobileNetV2 family, `false` for the ConvNeXt family. -/
def branchFamily : BranchKey → Bool
  | .mnv2_dct | .mnv2_stft | .mnv2_wave | .mnv2_learn => true
  | .cnx_dct | .cnx_stft | .cnx_wave | .cnx_learn => false

/-- The (early stage, mid stage) module pair a branch key is wired to
(models.py:21-30): every `mnv2_*` entry is `Sequential(mnv2_block1,
mnv2_block2)` over the once-instantiated blocks, and every `cnx_*` entry is
`Sequential(cnx_block1, cnx_block2)`. -/
def branchBlocks (m : MFN) (k : BranchKey) : (NDArr → NDArr) × (NDArr → NDArr) :=
  if branchFamily k then (m.w.mnv2_block1, m.w.mnv2_block2) else (m.w.cnx_block1, m.w.cnx_block2)

/-- The branch function `self.branches[k]`: the chained stage pair. -/
def branchFun (m : MFN) (k : BranchKey) (x : NDArr) : NDArr :=
  (branchBlocks m k).2 ((branchBlocks m k).1 x)

/-- `torch.cat([a, b], dim=channel)` on (C, H, W) feature maps. -/
def catCh (a b : NDArr) : NDArr :=
  ⟨[a.dim 0 + b.dim 0, a.dim 1, a.dim 2], fun idx =>
    let c := idx.getD 0 0
    if c < a.dim 0 then a.val [c, idx.getD 1 0, idx.getD 2 0]
    else b.val [c - a.dim 0, idx.getD 1 0, idx.getD 2 0]⟩

/-- The four transformed tensors handed to `MidFusionNet.forward`
(the batch dimension of size one added by `unsqueeze(0)` is elided). -/
structure Inputs where
  dct : NDArr
  stft : NDArr
  wavelet : NDArr
  learn : NDArr

/-- `torch.cat(feats, dim=1)` over the eight branch outputs in the order of
`MidFusionNet.forward` (models.py:62-72). -/
def fuseCat (m : MFN) (inp : Inputs) : NDArr :=
  catCh (branchFun m .mnv2_dct inp.dct)
    (catCh (branchFun m .mnv2_stft inp.stft)
      (catCh (branchFun m .mnv2_wave inp.wavelet)
        (catCh (branchFun m .mnv2_learn inp.learn)
          (catCh (branchFun m .cnx_dct inp.dct)
            (catCh (branchFun m .cnx_stft inp.stft)
              (catCh (branchFun m .cnx_wave inp.wavelet)
                (branchFun m .cnx_learn inp.learn)))))))

/-- `nn.Conv2d(fused_dim, 512, kernel_size=1)`: a 1x1 channel projection. -/
def conv1x1 (m : MFN) (x : NDArr) : NDArr :=
  ⟨[512, x.dim 1, x.dim 2], fun idx =>
    (∑ c ∈ Finset.range (x.dim 0),
        m.w.convW (idx.getD 0 0) c * x.val [c, idx.getD 1 0, idx.getD 2 0]) +
      m.w.convB (idx.getD 0 0)⟩

/-- `nn.BatchNorm2d` epsilon (PyTorch default `1e-5`). -/
def bnEps : ℝ := 1 / 100000

/-- `nn.BatchNorm2d` momentum (PyTorch default `0.1`). -/
def bnMom : ℝ := 1 / 10

/-- Per-channel batch mean over the (single-image) batch and spatial extent. -/
def bnMu (x : NDArr) (c : ℕ) : ℝ :=
  (∑ i ∈ Finset.range (x.dim 1), ∑ j ∈ Finset.range (x.dim 2), x.val [c, i, j]) /
    ((x.dim 1 * x.dim 2 : ℕ) : ℝ)

/-- Per-channel biased batch variance. -/
def bnVarB (x : NDArr) (c : ℕ) : ℝ :=
  (∑ i ∈ Finset.range (x.dim 1), ∑ j ∈ Finset.range (x.dim 2),
      (x.val [c, i, j] - bnMu x c) ^ 2) /
    ((x.dim 1 * x.dim 2 : ℕ) : ℝ)

/-- `BatchNorm2d` in training mode: normalise by the current batch statistics. -/
def bnTrain (m : MFN) (x : NDArr) : NDArr :=
  ⟨x.shape, fun idx =>
    let c := idx.getD 0 0
    m.w.bnGamma c * ((x.val idx - bnMu x c) / Real.sqrt (bnVarB x c + bnEps)) +
      m.w.bnBeta c⟩

/-- `BatchNorm2d` in eval mode: normalise by the stored running statistics. -/
def bnEvalMode (m : MFN) (x : NDArr) : NDArr :=
  ⟨x.shape, fun idx =>
    let c := idx.getD 0 0
    m.w.bnGamma c * ((x.val idx - m.w.bnMean c) / Real.sqrt (m.w.bnVar c + bnEps)) +
      m.w.bnBeta c⟩

/-- The `BatchNorm2d` forward: dispatches on `self.training`. -/
def bnForward (m : MFN) (x : NDArr) : NDArr :=
  if m.training then bnTrain m x else bnEvalMode m x

/-- In training mode `BatchNorm2d` also updates its running statistics
(momentum 0.1, unbiased variance); in eval mode the module is unchanged. -/
def bnUpdate (m : MFN) (x : NDArr) : MFN :=
  if m.training then
    { m with w := { m.w with
        bnMean := fun c => (1 - bnMom) * m.w.bnMean c + bnMom * bnMu x c,
        bnVar := fun c => (1 - bnMom) * m.w.bnVar c + bnMom *
          ((∑ i ∈ Finset.range (x.dim 1), ∑ j ∈ Finset.range (x.dim 2),
              (x.val [c, i, j] - bnMu x c) ^ 2) /
            ((x.dim 1 * x.dim 2 - 1 : ℕ) : ℝ)) } }
  else m

/-- `nn.ReLU()` on a feature map. -/
def reluA (a : NDArr) : NDArr := ⟨a.shape, fun idx => max (a.val idx) 0⟩

/-- `nn.AdaptiveAvgPool2d((1,1))` followed by `nn.Flatten()`: the per-channel
spatial average as a plain vector. -/
def avgpoolVec (a : NDArr) : ℕ → ℝ := fun c =>
  (∑ i ∈ Finset.range (a.dim 1), ∑ j ∈ Finset.range (a.dim 2), a.val [c, i, j]) /
    ((a.dim 1 * a.dim 2 : ℕ) : ℝ)

/-- `nn.Dropout(p)`: in training mode each coordinate is kept with the mask and
rescaled by `1/(1-p)` (inverted dropout), otherwise zeroed; in eval mode the
layer is the identity.  The Bernoulli draws of one call are abstracted as the
`mask` oracle. -/
def dropoutF (m : MFN) (mask : ℕ → Bool) (x : ℕ → ℝ) : ℕ → ℝ :=
  if m.training then fun c => if mask c then x c / (1 - m.dropoutP) else 0 else x

/-- `nn.Linear(512, num_classes)` with `num_classes = 5` (config.py). -/
def linearF (m : MFN) (x : ℕ → ℝ) : Fin 5 → ℝ := fun k =>
  (∑ c ∈ Finset.range 512, m.w.linW k.val c * x c) + m.w.linB k.val

/-- `self.classifier`: `Sequential(Flatten, Dropout(p), Linear(512, 5))`
(models.py:55-59); flattening is already folded into `avgpoolVec`. -/
def classifierF (m : MFN) (mask : ℕ → Bool) (x : ℕ → ℝ) : Fin 5 → ℝ :=
  linearF m (dropoutF m mask x)

/-- `MidFusionNet.forward` (models.py:61-75): branches, channel concatenation,
fusion encoder (1x1 conv, batch norm, ReLU, global average pool) and
classifier; also returns the module as left after the call (batch-norm running
statistics are updated when the module is in training mode). -/
def forwardMFN (m : MFN) (inp : Inputs) (mask : ℕ → Bool) : (Fin 5 → ℝ) × MFN :=
  (classifierF m mask (avgpoolVec (reluA (bnForward m (conv1x1 m (fuseCat m inp))))),
   bnUpdate m (conv1x1 m (fuseCat m inp)))

/-! ### ModelPredictor (utils.py) and configuration (config.py) -/

/-- `CLASS_NAMES` (config.py:27-33). -/
def CLASS_NAMES : List String :=
  ["Cassava Bacterial Blight (CBB)",
   "Cassava Brown Streak Disease (CBSD)",
   "Cassava Green Mottle (CGM)",
   "Cassava Mosaic Disease (CMD)",
   "Healthy"]

/-- `MODEL_CONFIG["dropout"]` (config.py:13). -/
def configDropout : ℝ := 2 / 5

/-- Default label for out-of-range lookups (never reached: the predicted index
is always below 5). -/
def noLabel : String := ""

/-- `torch.softmax(outputs, dim=1)` on the five logits. -/
def softmax5 (l : Fin 5 → ℝ) : Fin 5 → ℝ := fun i =>
  Real.exp (l i) / ∑ j : Fin 5, Real.exp (l j)

/-- One comparison step of `torch.argmax`: move to index `j` only on a strict
increase, so ties keep the earlier index. -/
def amStep (p : Fin 5 → ℝ) (b j : Fin 5) : Fin 5 := if p b < p j then j else b

/-- `torch.argmax` over five values: the first index attaining the maximum. -/
def argmax5 (p : Fin 5 → ℝ) : Fin 5 :=
  amStep p (amStep p (amStep p (amStep p 0 1) 2) 3) 4

/-- The dictionary `ModelPredictor.predict` returns (utils.py:77-85). -/
structure PredictionResult where
  predicted_class : String
  predicted_class_id : ℕ
  confidence : ℝ
  all_probabilities : List (String × ℝ)

/-- The `ModelPredictor` instance state: the model, the transform bank's only
stateful member (`LearnableFrequencyTransform.freq_filter`, drawn once in
`get_transforms`), and the configured class names. -/
structure Predictor where
  model : MFN
  freqFilter : ℕ → ℕ → ℝ
  class_names : List String

/-- `ModelPredictor.preprocess_image` (utils.py:41-61): apply all four
transforms; a transform failure (e.g. `cv2.dct` on odd sizes) is re-raised. -/
def preprocess (s : Predictor) (img : NDArr) : Except String Inputs :=
  match DCTTransform img with
  | .ok d => .ok ⟨d, STFTTransform img, WaveletTransform img,
      LearnFreqTransform s.freqFilter img⟩
  | .error e => .error e

/-- The `torch.no_grad` body of `ModelPredictor.predict` (utils.py:70-85):
forward pass, softmax, argmax, and result assembly; also returns the predictor
as left after the call. -/
def predictCore (s : Predictor) (inp : Inputs) (mask : ℕ → Bool) :
    PredictionResult × Predictor :=
  let fm := forwardMFN s.model inp mask
  let probs := softmax5 fm.1
  let idx := argmax5 probs
  ({ predicted_class := s.class_names.getD idx.val noLabel
   , predicted_class_id := idx.val
   , confidence := probs idx
   , all_probabilities :=
       (List.finRange 5).map fun i => (s.class_names.getD i.val noLabel, probs i) }
   , { s with model := fm.2 })

/-- `ModelPredictor.predict` (utils.py:63-91).  The `mask` oracle supplies the
Bernoulli draws a training-mode dropout layer would consume during this call;
an eval-mode model never reads it. -/
def predict (s : Predictor) (img : NDArr) (mask : ℕ → Bool) :
    Except String (PredictionResult × Predictor) :=
  match preprocess s img with
  | .ok inp => .ok (predictCore s inp mask)
  | .error e => .error e

/-! ### Construction and weight loading (utils.py:12-39) -/

/-- The error `Module.load_state_dict` raises on mismatched parameter names
or shapes. -/
def sdMismatchErr : String :=
  "Error in loading state_dict: parameter name or shape mismatch"

/-- `Module.load_state_dict`: succeeds exactly when the saved parameter
name/shape signature matches the constructed graph, replacing the weights;
otherwise it raises. -/
def load_state_dict (m : MFN) (sd : StateDict) : Except String MFN :=
  if sd.sig = m.sig then .ok { m with w := sd.decode }
  else .error sdMismatchErr

/-- The process environment `ModelPredictor.__init__` runs in: whether
`MODEL_PATH.exists()`, the blob `torch.load` would return, the weights and
signature of the freshly constructed `MidFusionNet` (pretrained backbones plus
random-init heads), and the `torch.randn` draw for the learnable frequency
filter made in `get_transforms`. -/
structure Env where
  pathExists : Bool
  stored : StateDict
  initW : Weights
  archSig : List (String × List ℕ)
  freqInit : ℕ → ℕ → ℝ

/-- The freshly constructed `MidFusionNet(num_classes=5, dropout=0.4)`;
a new `nn.Module` starts in training mode. -/
def mkMFN (env : Env) : MFN :=
  { w := env.initW, sig := env.archSig, dropoutP := configDropout, training := true }

/-- The warning printed when the weight file is missing (utils.py:34). -/
def warnMissing : String := "Warning: Model file not found at MODEL_PATH"

/-- The message printed on a successful load (utils.py:32). -/
def msgLoaded : String := "Model loaded successfully from MODEL_PATH"

/-- The second line printed in degraded mode (utils.py:35). -/
def msgRandomInit : String := "Model initialized with random weights"

/-- `ModelPredictor.load_model` (utils.py:20-39): construct the graph; if the
weight file exists, load it (raising on mismatch) and switch to eval mode;
otherwise keep the randomly initialised model (still in training mode) and
print a warning.  Returned alongside the model are the printed messages. -/
def load_model (env : Env) : Except String (MFN × List String) :=
  if env.pathExists then
    match load_state_dict (mkMFN env) env.stored with
    | .ok m1 => .ok ({ m1 with training := false }, [msgLoaded])
    | .error e => .error e
  else
    .ok (mkMFN env, [warnMissing, msgRandomInit])

/-- `ModelPredictor.__init__` (utils.py:13-18): build the transform bank
(drawing the learnable frequency mask once) and run `load_model`; a load
failure aborts construction. -/
def mkPredictor (env : Env) : Except String (Predictor × List String) :=
  match load_model env with
  | .ok ml => .ok ({ model := ml.1, freqFilter := env.freqInit
                   , class_names := CLASS_NAMES }, ml.2)
  | .error e => .error e

/-! ### Well-formedness of a prediction result (the shape of the spec's
`PredictionResult` contract) -/

/-- The `PredictionResult` contract of the spec: five entries keyed exactly by
the configured class names without duplicates; probabilities in `[0,1]` summing
to one within `1e-4`; the predicted index is the (first) arg-max position of
the probability vector; the confidence is the probability of the predicted
class and an upper bound for all probabilities; the label is the class-name
entry at the predicted index. -/
def WellFormedResult (r : PredictionResult) : Prop :=
  r.all_probabilities.length = 5 ∧
  r.all_probabilities.map Prod.fst = CLASS_NAMES ∧
  (r.all_probabilities.map Prod.fst).Nodup ∧
  (∀ pr ∈ r.all_probabilities, 0 ≤ pr.2 ∧ pr.2 ≤ 1) ∧
  |((r.all_probabilities.map Prod.snd).sum) - 1| ≤ 1 / 10000 ∧
  r.predicted_class_id < 5 ∧
  (r.all_probabilities.map Prod.snd).getD r.predicted_class_id 0 = r.confidence ∧
  (∀ v ∈ r.all_probabilities.map Prod.snd, v ≤ r.confidence) ∧
  (∀ k, k < r.predicted_class_id →
    (r.all_probabilities.map Prod.snd).getD k 0 < r.confidence) ∧
  r.predicted_class = CLASS_NAMES.getD r.predicted_class_id noLabel

/-- Three-channel replication contract: all three channels of a channel-first
tensor agree at every spatial position. -/
def ChanEq (t : NDArr) : Prop :=
  ∀ c c' i j, c < 3 → c' < 3 → t.val [c, i, j] = t.val [c', i, j]

/-! ### Concrete instances used in witnesses, counterexamples and failing
inputs -/

/-- An all-zero array of the given shape. -/
def zeroArr (s : List ℕ) : NDArr := ⟨s, fun _ => 0⟩

/-- A concrete stand-in for a pretrained backbone stage: constant 1x1x1
feature maps (any value is a legitimate instantiation of the opaque
torchvision weights). -/
def constStage : NDArr → NDArr := fun _ => zeroArr [1, 1, 1]

/-- A concrete identity stage. -/
def idStage : NDArr → NDArr := fun a => a

/-- Concrete weights used for the degraded-mode failing input: zero 1x1 conv,
a batch-norm with `gamma = 0` and `beta = e_0`, and a linear layer whose class-1
row reads coordinate 0 of the pooled vector. -/
def cexW : Weights :=
  { mnv2_block1 := constStage
  , mnv2_block2 := idStage
  , cnx_block1 := constStage
  , cnx_block2 := idStage
  , convW := fun _ _ => 0
  , convB := fun _ => 0
  , bnGamma := fun _ => 0
  , bnBeta := fun c => if c = 0 then 1 else 0
  , bnMean := fun _ => 0
  , bnVar := fun _ => 1
  , linW := fun k c => if k = 1 ∧ c = 0 then 1 else 0
  , linB := fun _ => 0 }

/-- A concrete environment whose weight file is missing (degraded mode). -/
def envMissing : Env :=
  { pathExists := false
  , stored := ⟨[], cexW⟩
  , initW := cexW
  , archSig := []
  , freqInit := fun _ _ => 0 }

/-- The model `load_model` produces in `envMissing` (training mode). -/
def cexMFN : MFN := mkMFN envMissing

/-- The predictor `ModelPredictor.__init__` produces in `envMissing`. -/
def cexPred : Predictor :=
  { model := cexMFN, freqFilter := envMissing.freqInit, class_names := CLASS_NAMES }

/-- A 2x2 all-black RGB image (even dimensions, accepted by every transform). -/
def img2 : NDArr := zeroArr [2, 2, 3]

/-- Dropout draws that keep every coordinate. -/
def maskKeep : ℕ → Bool := fun _ => true

/-- Dropout draws that drop every coordinate. -/
def maskDrop : ℕ → Bool := fun _ => false

/-- The transformed inputs `preprocess` computes for `cexPred` on `img2`. -/
def cexInp : Inputs :=
  ⟨toTensor (transpose201 (stack3 (resizeBL (dct2 (cvtGray img2)) 224 224))),
   STFTTransform img2, WaveletTransform img2,
   LearnFreqTransform cexPred.freqFilter img2⟩

/-- A stored blob whose parameter signature does not match the freshly
constructed graph (the graph signature of `envMismatch` is empty). -/
def sdMismatch : StateDict :=
  ⟨[("fusion_encoder.0.weight", [512, 1920, 1, 1])], cexW⟩

/-- A concrete environment whose weight file exists but mismatches the
architecture. -/
def envMismatch : Env :=
  { pathExists := true
  , stored := sdMismatch
  , initW := cexW
  , archSig := []
  , freqInit := fun _ _ => 0 }

/-- The pooled vector `e_0`, used as the classifier failing input. -/
def vecE0 : ℕ → ℝ := fun c => if c = 0 then 1 else 0

/-- An RGB image with an odd number of rows (a perfectly ordinary resolution
that `cv2.dct` rejects). -/
def imgOdd : NDArr := zeroArr [225, 224, 3]

/-- A concrete 3-D magnitude array, constant 3. -/
def magA : NDArr := ⟨[1, 33, 2], fun _ => 3⟩

/-- A concrete 3-D magnitude array agreeing with `magA` on the first time
segment but different (9) on the second. -/
def magB : NDArr :=
  ⟨[1, 33, 2], fun idx => if idx.getD 2 0 = 1 ∧ idx.length = 3 then 9 else 3⟩

/-! ### Helper lemmas: argmax, softmax, result assembly -/

theorem finLit2 : (⟨2, by omega⟩ : Fin 5) = 2 := rfl

theorem finLit3 : (⟨3, by omega⟩ : Fin 5) = 3 := rfl

theorem finLit4 : (⟨4, by omega⟩ : Fin 5) = 4 := rfl

/-- `argmax5` returns an index of maximal value, and every strictly earlier
index has a strictly smaller value (first-occurrence arg-max, as documented
for `torch.argmax`). -/
theorem argmax5_spec (p : Fin 5 → ℝ) :
    (∀ i, p i ≤ p (argmax5 p)) ∧ (∀ k, k < argmax5 p → p k < p (argmax5 p)) := by
  unfold argmax5 amStep
  split_ifs <;>
    exact ⟨fun i => by
        fin_cases i <;>
          simp only [Fin.mk_zero, Fin.mk_one, finLit2, finLit3, finLit4] <;> linarith,
      fun k hk => by
        fin_cases k <;>
          simp only [Fin.mk_zero, Fin.mk_one, finLit2, finLit3, finLit4] at hk ⊢ <;>
          first | exact absurd hk (by decide) | linarith⟩

theorem softmax5_denom_pos (l : Fin 5 → ℝ) : 0 < ∑ j : Fin 5, Real.exp (l j) :=
  Finset.sum_pos (fun j _ => Real.exp_pos _) ⟨0, Finset.mem_univ 0⟩

theorem softmax5_lt_iff (l : Fin 5 → ℝ) (i j : Fin 5) :
    softmax5 l i < softmax5 l j ↔ l i < l j := by
  unfold softmax5
  rw [div_lt_div_iff_of_pos_right (softmax5_denom_pos l)]
  exact Real.exp_lt_exp

/-- Softmax preserves all strict comparisons, so the (first-occurrence)
arg-max of the probabilities is the arg-max of the logits. -/
theorem argmax5_softmax (l : Fin 5 → ℝ) : argmax5 (softmax5 l) = argmax5 l := by
  unfold argmax5 amStep
  simp only [softmax5_lt_iff]

theorem softmax5_sum (l : Fin 5 → ℝ) : ∑ i : Fin 5, softmax5 l i = 1 := by
  unfold softmax5
  rw [← Finset.sum_div, div_self (ne_of_gt (softmax5_denom_pos l))]

theorem softmax5_pos (l : Fin 5 → ℝ) (i : Fin 5) : 0 < softmax5 l i :=
  div_pos (Real.exp_pos _) (softmax5_denom_pos l)

theorem softmax5_le_one (l : Fin 5 → ℝ) (i : Fin 5) : softmax5 l i ≤ 1 := by
  unfold softmax5
  rw [div_le_one (softmax5_denom_pos l)]
  exact Finset.single_le_sum (f := fun j => Real.exp (l j))
    (fun j _ => (Real.exp_pos (l j)).le) (Finset.mem_univ i)

theorem map_fst_probs (f : Fin 5 → ℝ) :
    (((List.finRange 5).map fun i => (CLASS_NAMES.getD i.val noLabel, f i)).map
      Prod.fst) = CLASS_NAMES := by
  rw [List.map_map]; rfl

theorem map_snd_probs (f : Fin 5 → ℝ) :
    (((List.finRange 5).map fun i => (CLASS_NAMES.getD i.val noLabel, f i)).map
      Prod.snd) = (List.finRange 5).map f := by
  rw [List.map_map]; rfl

theorem mapFinRange_getD (f : Fin 5 → ℝ) (k : ℕ) (hk : k < 5) :
    ((List.finRange 5).map f).getD k 0 = f ⟨k, hk⟩ := by
  interval_cases k <;> rfl

/-- The result assembled from any logits vector with the configured class
names is well-formed. -/
theorem result_wf (l : Fin 5 → ℝ) :
    WellFormedResult
      { predicted_class := CLASS_NAMES.getD (argmax5 (softmax5 l)).val noLabel
      , predicted_class_id := (argmax5 (softmax5 l)).val
      , confidence := softmax5 l (argmax5 (softmax5 l))
      , all_probabilities :=
          (List.finRange 5).map fun i =>
            (CLASS_NAMES.getD i.val noLabel, softmax5 l i) } := by
  set probs := softmax5 l with hp
  set idx := argmax5 probs with hi
  have hsum : (((List.finRange 5).map fun i =>
      (CLASS_NAMES.getD i.val noLabel, probs i)).map Prod.snd).sum = 1 := by
    rw [map_snd_probs, ← Fin.sum_univ_def]
    exact softmax5_sum l
  unfold WellFormedResult
  refine ⟨by simp, map_fst_probs probs, ?_, ?_, ?_, idx.isLt, ?_, ?_, ?_, rfl⟩
  · rw [map_fst_probs]; decide
  · intro pr hpr
    obtain ⟨i, _, rfl⟩ := List.mem_map.mp hpr
    exact ⟨(softmax5_pos l i).le, softmax5_le_one l i⟩
  · show |_ - 1| ≤ _
    rw [hsum]
    norm_num
  · show ((_ : List (String × ℝ)).map Prod.snd).getD idx.val 0 = probs idx
    rw [map_snd_probs, mapFinRange_getD probs idx.val idx.isLt]
  · intro v hv
    rw [map_snd_probs] at hv
    obtain ⟨i, _, rfl⟩ := List.mem_map.mp hv
    exact (argmax5_spec probs).1 i
  · intro k hk
    rw [map_snd_probs, mapFinRange_getD probs k (hk.trans idx.isLt)]
    exact (argmax5_spec probs).2 ⟨k, hk.trans idx.isLt⟩ hk

/-- The result `predictCore` assembles is well-formed, as long as the
predictor carries the configured class names. -/
theorem predictCore_wf (s : Predictor) (hcn : s.class_names = CLASS_NAMES)
    (inp : Inputs) (mask : ℕ → Bool) :
    WellFormedResult (predictCore s inp mask).1 := by
  have h := result_wf (forwardMFN s.model inp mask).1
  unfold predictCore
  simp only [hcn]
  exact h

/-- `preprocess` succeeds on every RGB image with even dimensions, with the
explicit transformed input pack. -/
theorem preprocess_ok (s : Predictor) (img : NDArr) (h w : ℕ)
    (hsh : img.shape = [h, w, 3]) (hh : h % 2 = 0) (hw : w % 2 = 0) :
    preprocess s img = .ok
      ⟨toTensor (transpose201 (stack3 (resizeBL (dct2 (cvtGray img)) 224 224))),
       STFTTransform img, WaveletTransform img,
       LearnFreqTransform s.freqFilter img⟩ := by
  have h0 : (cvtGray img).dim 0 = h := by simp [cvtGray, NDArr.dim, hsh]
  have h1 : (cvtGray img).dim 1 = w := by simp [cvtGray, NDArr.dim, hsh]
  unfold preprocess DCTTransform
  rw [h0, h1, if_pos ⟨hh, hw⟩]

/-- On every even-dimension RGB image, `predict` succeeds and returns a
well-formed result. -/
theorem predict_wf_aux (s : Predictor) (hcn : s.class_names = CLASS_NAMES)
    (img : NDArr) (mask : ℕ → Bool) (h w : ℕ)
    (hsh : img.shape = [h, w, 3]) (hh : h % 2 = 0) (hw : w % 2 = 0) :
    ∃ rp, predict s img mask = .ok rp ∧ WellFormedResult rp.1 := by
  refine ⟨predictCore s
    ⟨toTensor (transpose201 (stack3 (resizeBL (dct2 (cvtGray img)) 224 224))),
     STFTTransform img, WaveletTransform img,
     LearnFreqTransform s.freqFilter img⟩ mask,
    ?_, predictCore_wf s hcn _ mask⟩
  unfold predict
  rw [preprocess_ok s img h w hsh hh hw]

theorem mkPredictor_class_names (env : Env) (p : Predictor) (logs : List String)
    (h : mkPredictor env = .ok (p, logs)) : p.class_names = CLASS_NAMES := by
  unfold mkPredictor at h
  cases hl : load_model env with
  | ok ml =>
    rw [hl] at h
    injection h with h2
    obtain ⟨h3, -⟩ := Prod.mk.injEq .. |>.mp h2
    rw [← h3]
  | error e => rw [hl] at h; exact absurd h (by simp)

theorem predict_ok_core (s : Predictor) (img : NDArr) (mask : ℕ → Bool)
    (rp : PredictionResult × Predictor) (h : predict s img mask = .ok rp) :
    ∃ inp, preprocess s img = .ok inp ∧ rp = predictCore s inp mask := by
  unfold predict at h
  cases hp : preprocess s img with
  | ok inp =>
    rw [hp] at h
    injection h with h2
    exact ⟨inp, rfl, h2.symm⟩
  | error e => rw [hp] at h; exact absurd h (by simp)

/-! ### Claim theorems -/

/-- Claim C1: for every image accepted by `ModelPredictor.predict` (on a
predictor built by `ModelPredictor.__init__`), the returned result has exactly
one probability entry per configured class label (the five `CLASS_NAMES`,
without duplicates), every probability lies in `[0, 1]`, the values sum to 1
within `1e-4`, `predicted_class_id` is the (first) arg-max position of the
probability vector, `confidence` is the probability at that position and an
upper bound for all probabilities, and `predicted_class` is the class-name
list entry at the predicted index. -/
theorem claim_C1_predict_wellformed (env : Env) (p : Predictor)
    (logs : List String) (hmk : mkPredictor env = .ok (p, logs))
    (img : NDArr) (mask : ℕ → Bool) (rp : PredictionResult × Predictor)
    (hp : predict p img mask = .ok rp) : WellFormedResult rp.1 := by
  obtain ⟨inp, -, rfl⟩ := predict_ok_core p img mask rp hp
  exact predictCore_wf p (mkPredictor_class_names env p logs hmk) inp mask

/-- Witness for C1: the degraded-mode predictor on a concrete 2x2 image. -/
theorem claim_C1_witness :
    WellFormedResult (predictCore cexPred cexInp maskKeep).1 :=
  claim_C1_predict_wellformed envMissing cexPred [warnMissing, msgRandomInit]
    rfl img2 maskKeep (predictCore cexPred cexInp maskKeep) rfl

/-- Claim C6 (amended): on every RGB image the STFT, Wavelet and learnable
transforms return a 3x224x224 channel-first tensor; the DCT transform does so
exactly when both image dimensions are even, and raises the `cv2.dct`
even-size error when a dimension is odd. -/
theorem claim_C6_transform_shapes (img : NDArr) (h w : ℕ) (ff : ℕ → ℕ → ℝ)
    (hsh : img.shape = [h, w, 3]) (hh : 0 < h) (hw : 0 < w) :
    (STFTTransform img).shape = [3, 224, 224] ∧
    (WaveletTransform img).shape = [3, 224, 224] ∧
    (LearnFreqTransform ff img).shape = [3, 224, 224] ∧
    (h % 2 = 0 → w % 2 = 0 →
      ∃ t, DCTTransform img = .ok t ∧ t.shape = [3, 224, 224]) ∧
    (h % 2 = 1 ∨ w % 2 = 1 → DCTTransform img = .error dctEvenErr) := by
  have h0 : (cvtGray img).dim 0 = h := by simp [cvtGray, NDArr.dim, hsh]
  have h1 : (cvtGray img).dim 1 = w := by simp [cvtGray, NDArr.dim, hsh]
  refine ⟨rfl, rfl, rfl, ?_, ?_⟩
  · intro hh2 hw2
    refine ⟨toTensor (transpose201 (stack3 (resizeBL (dct2 (cvtGray img)) 224 224))),
      ?_, rfl⟩
    unfold DCTTransform
    rw [h0, h1, if_pos ⟨hh2, hw2⟩]
  · intro hodd
    have hne : ¬(h % 2 = 0 ∧ w % 2 = 0) := by rcases hodd with ho | ho <;> omega
    unfold DCTTransform
    rw [h0, h1, if_neg hne]

/-- Witness for C6 (amended): a concrete 2x2 image goes through all four
transforms with the stated shapes. -/
theorem claim_C6_witness :
    (STFTTransform img2).shape = [3, 224, 224] ∧
    (∃ t, DCTTransform img2 = .ok t ∧ t.shape = [3, 224, 224]) :=
  ⟨(claim_C6_transform_shapes img2 2 2 (fun _ _ => 0) rfl (by decide)
      (by decide)).1,
   (claim_C6_transform_shapes img2 2 2 (fun _ _ => 0) rfl (by decide)
      (by decide)).2.2.2.1 rfl rfl⟩

/-- Counterexample to C6 as stated: a 225x224 image is a valid RGB image of
some height and width, yet the DCT transform raises the `cv2.dct` even-size
error instead of returning a 3x224x224 tensor. -/
theorem claim_C6_counterexample : DCTTransform imgOdd = .error dctEvenErr := rfl

/-- Claim C8: for every RGB image (with the even dimensions `cv2.dct`
accepts, for the DCT conjunct), the three output channels of the DCT, STFT
and Wavelet transforms are pixel-identical. -/
theorem claim_C8_channels_identical (img : NDArr) (h w : ℕ)
    (hsh : img.shape = [h, w, 3]) (hh : h % 2 = 0) (hw : w % 2 = 0) :
    (∃ t, DCTTransform img = .ok t ∧ ChanEq t) ∧
    ChanEq (STFTTransform img) ∧ ChanEq (WaveletTransform img) := by
  have h0 : (cvtGray img).dim 0 = h := by simp [cvtGray, NDArr.dim, hsh]
  have h1 : (cvtGray img).dim 1 = w := by simp [cvtGray, NDArr.dim, hsh]
  refine ⟨⟨toTensor (transpose201 (stack3 (resizeBL (dct2 (cvtGray img)) 224 224))),
    ?_, ?_⟩, ?_, ?_⟩
  · unfold DCTTransform
    rw [h0, h1, if_pos ⟨hh, hw⟩]
  · intro c c2 i j _ _; rfl
  · intro c c2 i j _ _; rfl
  · intro c c2 i j _ _; rfl

/-- Witness for C8 at a concrete 2x2 image. -/
theorem claim_C8_witness :
    (∃ t, DCTTransform img2 = .ok t ∧ ChanEq t) ∧
    ChanEq (STFTTransform img2) ∧ ChanEq (WaveletTransform img2) :=
  claim_C8_channels_identical img2 2 2 rfl rfl rfl

theorem cvtGray_zero (img : NDArr) (hz : ∀ idx, img.val idx = 0) :
    ∀ idx, (cvtGray img).val idx = 0 := by
  intro idx; simp [cvtGray, hz]

theorem dwt2LL_zero (g : NDArr) (hz : ∀ idx, g.val idx = 0) :
    ∀ idx, (dwt2LL g).val idx = 0 := by
  intro idx; simp [dwt2LL, hz]

theorem npAbs_zero (a : NDArr) (hz : ∀ idx, a.val idx = 0) :
    ∀ idx, (npAbs a).val idx = 0 := by
  intro idx; simp [npAbs, hz]

theorem resizeBL_zero (a : NDArr) (W H : ℕ) (hz : ∀ idx, a.val idx = 0) :
    ∀ idx, (resizeBL a W H).val idx = 0 := by
  intro idx; simp [resizeBL, hz]

/-- Claim C9: an all-black RGB image of any resolution yields an all-zero
Wavelet transform output: the Haar approximation subband of a zero image is
zero, its absolute value is zero, and the bilinear resize preserves zero. -/
theorem claim_C9_wavelet_zero (img : NDArr) (h w : ℕ)
    (hsh : img.shape = [h, w, 3]) (hz : ∀ idx, img.val idx = 0) :
    ∀ idx, (WaveletTransform img).val idx = 0 := by
  intro idx
  show (resizeBL (npAbs (dwt2LL (cvtGray img))) 224 224).val _ = 0
  exact resizeBL_zero _ _ _ (npAbs_zero _ (dwt2LL_zero _ (cvtGray_zero _ hz))) _

/-- Witness for C9 at the concrete all-black 2x2 image and a concrete index. -/
theorem claim_C9_witness : (WaveletTransform img2).val [0, 5, 7] = 0 :=
  claim_C9_wavelet_zero img2 2 2 rfl (fun _ => rfl) [0, 5, 7]

/-- Claim C10: the STFT magnitude of a 2-D grayscale input is always
3-dimensional (rows x frequency bins x time segments), so the dimensionality
guard always fires and the transform factors through `magnitude[:, :, 0]`:
any two magnitude arrays of equal leading dimensions that agree on the first
time segment produce the same transform output (all later segments are
discarded). -/
theorem claim_C10_stft_guard (img : NDArr) :
    (npAbsC (scipyStft (cvtGray img))).shape.length = 3 ∧
    STFTTransform img = toTensor (transpose201 (repeat3 (resizeBL
      (sliceLast0 (npAbsC (scipyStft (cvtGray img)))) 224 224))) ∧
    (∀ m1 m2 : NDArr, 2 < m1.shape.length → 2 < m2.shape.length →
      m1.shape.take 2 = m2.shape.take 2 →
      (∀ idx, m1.val (idx ++ [0]) = m2.val (idx ++ [0])) →
      stftPost m1 = stftPost m2) := by
  refine ⟨rfl, rfl, ?_⟩
  intro m1 m2 hl1 hl2 hsh hv
  have hs : sliceLast0 m1 = sliceLast0 m2 := by
    unfold sliceLast0
    rw [hsh]
    exact congrArg _ (funext hv)
  unfold stftPost
  rw [if_pos hl1, if_pos hl2, hs]

theorem magAB_slice0 : ∀ idx : List ℕ, magA.val (idx ++ [0]) = magB.val (idx ++ [0]) := by
  intro idx
  unfold magA magB
  by_cases hlen : idx.length = 2
  · obtain ⟨a, b, rfl⟩ := List.length_eq_two.mp hlen
    simp [List.getD]
  · simp [hlen]

/-- Witness for C10: two concrete 3-D magnitude arrays differing only on the
second time segment produce the same transform output. -/
theorem claim_C10_witness :
    magA.shape.take 2 = magB.shape.take 2 ∧ stftPost magA = stftPost magB :=
  ⟨rfl, (claim_C10_stft_guard img2).2.2 magA magB (by decide) (by decide)
    rfl magAB_slice0⟩

/-- Claim C7: each backbone family's stages are instantiated once and shared
across its four branches: any two branch functions of the same family are
extensionally equal, and every branch's stage pair is one of the two family
stage pairs (two distinct parameter sets among the eight branches). -/
theorem claim_C7_branch_sharing (m : MFN) (k k2 : BranchKey)
    (hf : branchFamily k = branchFamily k2) (x : NDArr) :
    branchFun m k x = branchFun m k2 x ∧
    (branchBlocks m k = (m.w.mnv2_block1, m.w.mnv2_block2) ∨
      branchBlocks m k = (m.w.cnx_block1, m.w.cnx_block2)) := by
  constructor
  · unfold branchFun branchBlocks
    rw [hf]
  · unfold branchBlocks
    cases hb : branchFamily k <;> simp [hb]

/-- Witness for C7: two MobileNetV2-family branches of the concrete model. -/
theorem claim_C7_witness :
    branchFun cexMFN .mnv2_dct img2 = branchFun cexMFN .mnv2_stft img2 ∧
    (branchBlocks cexMFN .mnv2_dct = (cexMFN.w.mnv2_block1, cexMFN.w.mnv2_block2) ∨
      branchBlocks cexMFN .mnv2_dct = (cexMFN.w.cnx_block1, cexMFN.w.cnx_block2)) :=
  claim_C7_branch_sharing cexMFN .mnv2_dct .mnv2_stft rfl img2

/-- Claim C2: at construction, a missing weight file is non-fatal: `__init__`
succeeds with the randomly initialised model, the warning is among the
printed messages, and `predict` on the resulting predictor still returns a
well-formed result on every accepted image; a stored blob whose parameter
names or shapes mismatch the freshly constructed graph makes construction
raise the fatal load error, so no predictor (and hence no `predict` call) is
reachable. -/
theorem claim_C2_construction (env : Env) :
    (env.pathExists = false →
      ∃ p logs, mkPredictor env = .ok (p, logs) ∧ warnMissing ∈ logs ∧
        ∀ img mask h w, img.shape = [h, w, 3] → h % 2 = 0 → w % 2 = 0 →
          ∃ rp, predict p img mask = .ok rp ∧ WellFormedResult rp.1) ∧
    (env.pathExists = true → env.stored.sig ≠ (mkMFN env).sig →
      mkPredictor env = .error sdMismatchErr) := by
  constructor
  · intro hfe
    refine ⟨⟨mkMFN env, env.freqInit, CLASS_NAMES⟩, [warnMissing, msgRandomInit],
      ?_, ?_, ?_⟩
    · unfold mkPredictor load_model
      rw [hfe]
      rfl
    · exact List.mem_cons_self _ _
    · intro img mask h w hsh hh hw
      exact predict_wf_aux _ rfl img mask h w hsh hh hw
  · intro hte hne
    unfold mkPredictor load_model load_state_dict
    rw [hte, if_pos rfl, if_neg hne]

/-- Witness for C2: the two arms at concrete environments (missing file;
mismatching stored signature). -/
theorem claim_C2_witness :
    (∃ p logs, mkPredictor envMissing = .ok (p, logs) ∧ warnMissing ∈ logs ∧
      ∀ img mask h w, img.shape = [h, w, 3] → h % 2 = 0 → w % 2 = 0 →
        ∃ rp, predict p img mask = .ok rp ∧ WellFormedResult rp.1) ∧
    mkPredictor envMismatch = .error sdMismatchErr :=
  ⟨(claim_C2_construction envMissing).1 rfl,
   (claim_C2_construction envMismatch).2 rfl (by decide)⟩

/-- Claim C5: after a successful construction the model is in eval mode
exactly when the weight file existed; when the file is absent the model
remains in training mode, and the dropout and batch-norm layers of every
subsequent forward pass follow their training-mode semantics (mask-scaled
dropout, batch-statistics normalisation). -/
theorem claim_C5_eval_iff_weights (env : Env) (m : MFN) (logs : List String)
    (h : load_model env = .ok (m, logs)) :
    (m.training = false ↔ env.pathExists = true) ∧
    (env.pathExists = false →
      m.training = true ∧
      (∀ mask x, dropoutF m mask x =
        fun c => if mask c then x c / (1 - m.dropoutP) else 0) ∧
      (∀ x, bnForward m x = bnTrain m x)) := by
  have htr : m.training = !env.pathExists := by
    unfold load_model at h
    cases hpe : env.pathExists with
    | true =>
      rw [hpe, if_pos rfl] at h
      cases hsd : load_state_dict (mkMFN env) env.stored with
      | ok m1 =>
        rw [hsd] at h
        injection h with h2
        obtain ⟨h3, -⟩ := Prod.mk.injEq .. |>.mp h2
        rw [← h3]
        rfl
      | error e => rw [hsd] at h; exact absurd h (by simp)
    | false =>
      rw [hpe, if_neg (by simp)] at h
      injection h with h2
      obtain ⟨h3, -⟩ := Prod.mk.injEq .. |>.mp h2
      rw [← h3]
      rfl
  constructor
  · rw [htr]; cases env.pathExists <;> simp
  · intro hfe
    have ht : m.training = true := by rw [htr, hfe]; rfl
    refine ⟨ht, fun mask x => ?_, fun x => ?_⟩
    · simp [dropoutF, ht]
    · simp [bnForward, ht]

/-- Witness for C5: the degraded-mode environment. -/
theorem claim_C5_witness :
    (cexMFN.training = false ↔ envMissing.pathExists = true) ∧
    (envMissing.pathExists = false →
      cexMFN.training = true ∧
      (∀ mask x, dropoutF cexMFN mask x =
        fun c => if mask c then x c / (1 - cexMFN.dropoutP) else 0) ∧
      (∀ x, bnForward cexMFN x = bnTrain cexMFN x)) :=
  claim_C5_eval_iff_weights envMissing cexMFN [warnMissing, msgRandomInit] rfl

/-! ### Degraded-mode forward evaluation on the concrete model -/

theorem conv_cex_val (x : NDArr) (idx : List ℕ) :
    (conv1x1 cexMFN x).val idx = 0 := by
  simp [conv1x1, cexMFN, mkMFN, envMissing, cexW]

theorem bn_cex_val (x : NDArr) (idx : List ℕ) :
    (bnForward cexMFN x).val idx = if idx.getD 0 0 = 0 then 1 else 0 := by
  simp [bnForward, bnTrain, cexMFN, mkMFN, envMissing, cexW]

theorem relu_bn_cex (x : NDArr) (idx : List ℕ) :
    (reluA (bnForward cexMFN x)).val idx = if idx.getD 0 0 = 0 then 1 else 0 := by
  show max ((bnForward cexMFN x).val idx) 0 = _
  rw [bn_cex_val]
  split_ifs
  · exact max_eq_left (by norm_num)
  · exact max_self 0

theorem pooled_cex (inp : Inputs) :
    avgpoolVec (reluA (bnForward cexMFN (conv1x1 cexMFN (fuseCat cexMFN inp))))
      = fun c => if c = 0 then (1 : ℝ) else 0 := by
  funext c
  have hd1 :
      (reluA (bnForward cexMFN (conv1x1 cexMFN (fuseCat cexMFN inp)))).dim 1 = 1 := rfl
  have hd2 :
      (reluA (bnForward cexMFN (conv1x1 cexMFN (fuseCat cexMFN inp)))).dim 2 = 1 := rfl
  unfold avgpoolVec
  rw [hd1, hd2, Finset.sum_range_one, Finset.sum_range_one, relu_bn_cex]
  norm_num

theorem sum512_single (k : Fin 5) (g : ℕ → ℝ) :
    (∑ c ∈ Finset.range 512,
      (if k.val = 1 ∧ c = 0 then (1 : ℝ) else 0) * g c) =
      if k.val = 1 then g 0 else 0 := by
  rw [Finset.sum_eq_single_of_mem 0 (Finset.mem_range.mpr (by norm_num))]
  · by_cases hk : k.val = 1 <;> simp [hk]
  · intro b _ hb
    simp [hb]

theorem logits_keep (inp : Inputs) :
    (forwardMFN cexMFN inp maskKeep).1 =
      fun k => if k = (1 : Fin 5) then (5 / 3 : ℝ) else 0 := by
  funext k
  show classifierF cexMFN maskKeep
      (avgpoolVec (reluA (bnForward cexMFN (conv1x1 cexMFN (fuseCat cexMFN inp))))) k = _
  rw [pooled_cex]
  unfold classifierF dropoutF linearF
  simp only [cexMFN, mkMFN, envMissing, cexW, configDropout, maskKeep, ite_true]
  rw [add_zero, sum512_single k (fun c => (if c = 0 then (1 : ℝ) else 0) / (1 - 2 / 5))]
  by_cases hk : k = (1 : Fin 5)
  · subst hk; norm_num
  · have hk2 : ¬(k.val = 1) := fun hv => hk (Fin.ext hv)
    simp [hk, hk2]

theorem logits_drop (inp : Inputs) :
    (forwardMFN cexMFN inp maskDrop).1 = fun _ => (0 : ℝ) := by
  funext k
  show classifierF cexMFN maskDrop
      (avgpoolVec (reluA (bnForward cexMFN (conv1x1 cexMFN (fuseCat cexMFN inp))))) k = _
  rw [pooled_cex]
  unfold classifierF dropoutF linearF
  simp [cexMFN, mkMFN, envMissing, cexW, maskDrop]

theorem argmax_keep :
    argmax5 (softmax5 (fun k => if k = (1 : Fin 5) then (5 / 3 : ℝ) else 0)) = 1 := by
  rw [argmax5_softmax]
  have key : ∀ s : Fin 5,
      (if (1 : Fin 5) = 1 then (5 / 3 : ℝ) else 0) ≤
        (if s = 1 then (5 / 3 : ℝ) else 0) → s = 1 := by
    intro s hs
    fin_cases s <;> simp_all <;> linarith
  exact key _ ((argmax5_spec fun k => if k = (1 : Fin 5) then (5 / 3 : ℝ) else 0).1 1)

theorem argmax_zero : argmax5 (softmax5 (fun _ => (0 : ℝ))) = 0 := by
  rw [argmax5_softmax]
  by_contra hne
  have h0 : (0 : Fin 5) < argmax5 (fun _ => (0 : ℝ)) := Fin.pos_of_ne_zero hne
  exact lt_irrefl _ ((argmax5_spec (fun _ : Fin 5 => (0 : ℝ))).2 0 h0)

/-- Claim C3 (violated by the code, demonstrating the bug): the degraded-mode
predictor (weight file missing, so `model.eval()` is never called) is
reachable from construction; on the same instance, with identical weights and
the same image, two `predict` invocations whose training-mode dropout draws
differ return different results (predicted class 1 versus 0), so `predict` is
not a deterministic function of (image, weights). -/
theorem claim_C3_degraded_nondeterminism :
    mkPredictor envMissing = .ok (cexPred, [warnMissing, msgRandomInit]) ∧
    (∃ rp1 rp2 : PredictionResult × Predictor,
      predict cexPred img2 maskKeep = .ok rp1 ∧
      predict cexPred img2 maskDrop = .ok rp2 ∧
      rp1.1.predicted_class_id = 1 ∧ rp2.1.predicted_class_id = 0) ∧
    predict cexPred img2 maskKeep ≠ predict cexPred img2 maskDrop := by
  have hid1 : (predictCore cexPred cexInp maskKeep).1.predicted_class_id = 1 := by
    show (argmax5 (softmax5 (forwardMFN cexMFN cexInp maskKeep).1)).val = 1
    rw [logits_keep, argmax_keep]
    rfl
  have hid2 : (predictCore cexPred cexInp maskDrop).1.predicted_class_id = 0 := by
    show (argmax5 (softmax5 (forwardMFN cexMFN cexInp maskDrop).1)).val = 0
    rw [logits_drop, argmax_zero]
    rfl
  refine ⟨rfl, ⟨predictCore cexPred cexInp maskKeep,
    predictCore cexPred cexInp maskDrop, rfl, rfl, hid1, hid2⟩, ?_⟩
  intro heq
  rw [show predict cexPred img2 maskKeep = .ok (predictCore cexPred cexInp maskKeep)
      from rfl,
    show predict cexPred img2 maskDrop = .ok (predictCore cexPred cexInp maskDrop)
      from rfl] at heq
  injection heq with h2
  have hc := congrArg (fun rp : PredictionResult × Predictor =>
    rp.1.predicted_class_id) h2
  simp only [] at hc
  rw [hid1, hid2] at hc
  exact one_ne_zero hc

/-- Claim C4 (violated by the code, demonstrating the bug): in the reachable
degraded-mode state the model is still in training mode, and the classifier
then is not the plain linear projection: with all-keep dropout draws on the
pooled vector `e_0`, the kept coordinate is rescaled by `1/(1-0.4)`, so the
classifier output differs from the projection without dropout. -/
theorem claim_C4_dropout_not_noop :
    mkPredictor envMissing = .ok (cexPred, [warnMissing, msgRandomInit]) ∧
    cexPred.model.training = true ∧
    classifierF cexPred.model maskKeep vecE0 1 ≠ linearF cexPred.model vecE0 1 := by
  refine ⟨rfl, rfl, ?_⟩
  have h1 : classifierF cexPred.model maskKeep vecE0 1 = 5 / 3 := by
    show classifierF cexMFN maskKeep vecE0 1 = 5 / 3
    unfold classifierF dropoutF linearF
    simp only [cexMFN, mkMFN, envMissing, cexW, configDropout, maskKeep, vecE0, ite_true]
    rw [add_zero, sum512_single 1 (fun c => (if c = 0 then (1 : ℝ) else 0) / (1 - 2 / 5))]
    norm_num
  have h2 : linearF cexPred.model vecE0 1 = 1 := by
    show linearF cexMFN vecE0 1 = 1
    unfold linearF
    simp only [cexMFN, mkMFN, envMissing, cexW, vecE0]
    rw [add_zero, sum512_single 1 (fun c => if c = 0 then (1 : ℝ) else 0)]
    norm_num
  rw [h1, h2]
  norm_num

end
